import Mathlib

/-!
Verification of the animals REST API core: the Zod discriminated-union
validator (`src/apps/api/src/models/animal.ts`), the in-memory store
(`animals` / `resetAnimals`), and the Express route handlers
(`src/apps/api/src/index.ts`).  JSON values are embedded shallowly with
numbers as rationals; machine floats do not matter at the magnitudes the
schemas constrain.
-/

/-- A JSON value as delivered to the route layer by the body parser.
An object is a list of key-value pairs (keys unique after JSON parsing). -/
inductive Json where
  | null : Json
  | bool (b : Bool) : Json
  | num (q : ℚ) : Json
  | str (s : String) : Json
  | arr (xs : List Json) : Json
  | obj (kvs : List (String × Json)) : Json

mutual

/-- Structural equality test for JSON values. -/
def Json.beq : Json → Json → Bool
  | .null, .null => true
  | .bool a, .bool b => a == b
  | .num a, .num b => a == b
  | .str a, .str b => a == b
  | .arr a, .arr b => Json.beqList a b
  | .obj a, .obj b => Json.beqKvs a b
  | _, _ => false

/-- Structural equality test for JSON arrays. -/
def Json.beqList : List Json → List Json → Bool
  | [], [] => true
  | x :: xs, y :: ys => Json.beq x y && Json.beqList xs ys
  | _, _ => false

/-- Structural equality test for JSON object member lists. -/
def Json.beqKvs : List (String × Json) → List (String × Json) → Bool
  | [], [] => true
  | (k, v) :: xs, (k2, v2) :: ys =>
      k == k2 && Json.beq v v2 && Json.beqKvs xs ys
  | _, _ => false

end

mutual

theorem Json.beq_iff : ∀ a b : Json, Json.beq a b = true ↔ a = b
  | .null, .null => by simp [Json.beq]
  | .bool a, .bool b => by simp [Json.beq]
  | .num a, .num b => by simp [Json.beq]
  | .str a, .str b => by simp [Json.beq]
  | .arr a, .arr b => by
      simp only [Json.beq, Json.arr.injEq]
      exact Json.beqList_iff a b
  | .obj a, .obj b => by
      simp only [Json.beq, Json.obj.injEq]
      exact Json.beqKvs_iff a b
  | .null, .bool _ | .null, .num _ | .null, .str _ | .null, .arr _
  | .null, .obj _ | .bool _, .null | .bool _, .num _ | .bool _, .str _
  | .bool _, .arr _ | .bool _, .obj _ | .num _, .null | .num _, .bool _
  | .num _, .str _ | .num _, .arr _ | .num _, .obj _ | .str _, .null
  | .str _, .bool _ | .str _, .num _ | .str _, .arr _ | .str _, .obj _
  | .arr _, .null | .arr _, .bool _ | .arr _, .num _ | .arr _, .str _
  | .arr _, .obj _ | .obj _, .null | .obj _, .bool _ | .obj _, .num _
  | .obj _, .str _ | .obj _, .arr _ => by simp [Json.beq]

theorem Json.beqList_iff : ∀ a b : List Json, Json.beqList a b = true ↔ a = b
  | [], [] => by simp [Json.beqList]
  | x :: xs, y :: ys => by
      simp only [Json.beqList, Bool.and_eq_true, List.cons.injEq]
      exact and_congr (Json.beq_iff x y) (Json.beqList_iff xs ys)
  | [], _ :: _ => by simp [Json.beqList]
  | _ :: _, [] => by simp [Json.beqList]

theorem Json.beqKvs_iff :
    ∀ a b : List (String × Json), Json.beqKvs a b = true ↔ a = b
  | [], [] => by simp [Json.beqKvs]
  | (k, v) :: xs, (k2, v2) :: ys => by
      simp only [Json.beqKvs, Bool.and_eq_true, List.cons.injEq,
        Prod.mk.injEq, beq_iff_eq]
      rw [Json.beq_iff v v2, Json.beqKvs_iff xs ys, and_assoc]
  | [], _ :: _ => by simp [Json.beqKvs]
  | _ :: _, [] => by simp [Json.beqKvs]

end

instance : DecidableEq Json := fun a b =>
  decidable_of_iff (Json.beq a b = true) (Json.beq_iff a b)

/-- Field access on a JSON object member list: the value bound to key `k`. -/
def jlookup (kvs : List (String × Json)) (k : String) : Option Json :=
  (kvs.find? (fun p => p.1 == k)).map (fun p => p.2)

/-- A validated Animal: the discriminated union of `CatSchema` and
`DogSchema` from `models/animal.ts`.  Ages and lives are integers because
the schemas check `.int()`. -/
inductive Animal where
  | cat (name : String) (age : Int) (livesLeft : Int) : Animal
  | dog (name : String) (age : Int) (breed : String) : Animal
  deriving DecidableEq

/-- The `name` field common to both variants. -/
def Animal.name : Animal → String
  | .cat n _ _ => n
  | .dog n _ _ => n

/-- Errors produced by `AnimalSchema.safeParse`: either a non-field-level
failure (wrong discriminator, non-object input) or a per-field error tree. -/
inductive AnimalError where
  | invalidInput (msg : String) : AnimalError
  | fieldErrors (tree : List (String × List String)) : AnimalError
  deriving DecidableEq

/-- Issues for `z.string().min(1, msg)`: a required non-empty string. -/
def checkNonEmptyString (msg : String) (v : Option Json) : List String :=
  match v with
  | some (.str s) => if s.length ≥ 1 then [] else [msg]
  | some _ => ["Invalid input: expected string"]
  | none => ["Required"]

/-- Issues for `z.number().int().positive(msg)`. -/
def checkPositiveInt (msg : String) (v : Option Json) : List String :=
  match v with
  | some (.num q) =>
      (if q.den = 1 then [] else ["Invalid input: expected int"]) ++
      (if 0 < q then [] else [msg])
  | some _ => ["Invalid input: expected number"]
  | none => ["Required"]

/-- Issues for the `livesLeft` rule `z.number().int().min(0, m1).max(9, m2)`. -/
def checkLivesLeft (v : Option Json) : List String :=
  match v with
  | some (.num q) =>
      (if q.den = 1 then [] else ["Invalid input: expected int"]) ++
      (if 0 ≤ q then [] else ["Lives left cannot be negative"]) ++
      (if q ≤ 9 then [] else ["Cats have a maximum of 9 lives"])
  | some _ => ["Invalid input: expected number"]
  | none => ["Required"]

/-- The field-error tree `CatSchema` reports on a failing object body. -/
def catFieldTree (kvs : List (String × Json)) : List (String × List String) :=
  ([("name", checkNonEmptyString "Name is required" (jlookup kvs "name")),
    ("age", checkPositiveInt "Age must be a positive integer" (jlookup kvs "age")),
    ("livesLeft", checkLivesLeft (jlookup kvs "livesLeft"))]).filter
    (fun p => p.2 ≠ [])

/-- The field-error tree `DogSchema` reports on a failing object body. -/
def dogFieldTree (kvs : List (String × Json)) : List (String × List String) :=
  ([("name", checkNonEmptyString "Name is required" (jlookup kvs "name")),
    ("age", checkPositiveInt "Age must be a positive integer" (jlookup kvs "age")),
    ("breed", checkNonEmptyString "Breed is required" (jlookup kvs "breed"))]).filter
    (fun p => p.2 ≠ [])

/-- `CatSchema` applied to an object's members: every field rule must pass;
unknown keys are ignored (Zod objects strip unrecognized keys by default). -/
def parseCat (kvs : List (String × Json)) : Except AnimalError Animal :=
  match jlookup kvs "name", jlookup kvs "age", jlookup kvs "livesLeft" with
  | some (.str n), some (.num a), some (.num l) =>
      if n.length ≥ 1 ∧ a.den = 1 ∧ 0 < a ∧ l.den = 1 ∧ 0 ≤ l ∧ l ≤ 9 then
        .ok (.cat n a.num l.num)
      else
        .error (.fieldErrors (catFieldTree kvs))
  | _, _, _ => .error (.fieldErrors (catFieldTree kvs))

/-- `DogSchema` applied to an object's members. -/
def parseDog (kvs : List (String × Json)) : Except AnimalError Animal :=
  match jlookup kvs "name", jlookup kvs "age", jlookup kvs "breed" with
  | some (.str n), some (.num a), some (.str b) =>
      if n.length ≥ 1 ∧ a.den = 1 ∧ 0 < a ∧ b.length ≥ 1 then
        .ok (.dog n a.num b)
      else
        .error (.fieldErrors (dogFieldTree kvs))
  | _, _, _ => .error (.fieldErrors (dogFieldTree kvs))

/-- `AnimalSchema.safeParse`: the discriminated union dispatches on the
`type` member; any discriminator other than the literal strings picks no
variant and fails before any field-level check. -/
def animalSafeParse (j : Json) : Except AnimalError Animal :=
  match j with
  | .obj kvs =>
      if jlookup kvs "type" = some (.str "cat") then parseCat kvs
      else if jlookup kvs "type" = some (.str "dog") then parseDog kvs
      else .error (.invalidInput "Invalid discriminator value. Expected one of cat, dog")
  | _ => .error (.invalidInput "Invalid input: expected object")

/-- JSON rendering of a stored record, as serialized by `res.json`. -/
def animalToJson : Animal → Json
  | .cat n a l =>
      .obj [("type", .str "cat"), ("name", .str n),
            ("age", .num (a : ℚ)), ("livesLeft", .num (l : ℚ))]
  | .dog n a b =>
      .obj [("type", .str "dog"), ("name", .str n),
            ("age", .num (a : ℚ)), ("breed", .str b)]

/-- The `z.treeifyError` rendering carried in the 400 response `details`. -/
def treeifyError : AnimalError → Json
  | .invalidInput msg => .obj [("errors", .arr [.str msg])]
  | .fieldErrors tree =>
      .obj [("errors", .arr []),
            ("properties", .obj (tree.map
              (fun p => (p.1, Json.obj [("errors", .arr (p.2.map Json.str))]))))]

/-- The seed contents of the module-level `animals` array at process start. -/
def initialAnimals : List Animal :=
  [.cat "Whiskers" 3 7, .dog "Buddy" 5 "Labrador"]

/-- `resetAnimals`: replaces the whole collection with the fixed seed. -/
def resetAnimals (_ : List Animal) : List Animal :=
  [.cat "Whiskers" 3 7, .dog "Buddy" 5 "Labrador"]

/-- An HTTP response as produced by the route handlers: status code, the
optional Location header, and the optional JSON body. -/
structure HttpResponse where
  status : Nat
  location : Option String
  body : Option Json
  deriving DecidableEq

/-- Handler for `GET /animals`: serialize the whole store in list order. -/
def getAnimals (store : List Animal) : HttpResponse :=
  ⟨200, none, some (.arr (store.map animalToJson))⟩

/-- Handler for `GET /animals/:name`: first record with that exact name,
else a 404 with the fixed not-found body. -/
def getAnimalByName (store : List Animal) (name : String) : HttpResponse :=
  match store.find? (fun a => a.name == name) with
  | some a => ⟨200, none, some (animalToJson a)⟩
  | none => ⟨404, none, some (.obj [("error", .str "Animal not found")])⟩

/-- Handler for `POST /animals`: validate the body; on failure answer 400
with the fixed message and error tree, leaving the store alone; on success
append and answer 201 with a Location header and empty body. -/
def postAnimals (store : List Animal) (body : Json) :
    List Animal × HttpResponse :=
  match animalSafeParse body with
  | .error e =>
      (store, ⟨400, none,
        some (.obj [("error", .str "Invalid animal data"),
                    ("details", treeifyError e)])⟩)
  | .ok a =>
      (store ++ [a], ⟨201, some ("/animals/" ++ a.name), none⟩)

/-- The canonical JSON input for an animal: the declared fields in schema
order.  Coincides with the serialized form of the record. -/
def animalKvs : Animal → List (String × Json)
  | .cat n a l =>
      [("type", .str "cat"), ("name", .str n),
       ("age", .num (a : ℚ)), ("livesLeft", .num (l : ℚ))]
  | .dog n a b =>
      [("type", .str "dog"), ("name", .str n),
       ("age", .num (a : ℚ)), ("breed", .str b)]

/-- The variant constraints every stored record satisfies: exactly the
field rules of `CatSchema` and `DogSchema` on a typed record. -/
def validAnimal : Animal → Prop
  | .cat n a l => n ≠ "" ∧ 0 < a ∧ 0 ≤ l ∧ l ≤ 9
  | .dog n a b => n ≠ "" ∧ 0 < a ∧ b ≠ ""

instance (a : Animal) : Decidable (validAnimal a) := by
  cases a <;> simp only [validAnimal] <;> infer_instance

deriving instance DecidableEq for Except

example : animalSafeParse (.obj (animalKvs (.dog "Rex" 2 "Pug"))) =
    .ok (.dog "Rex" 2 "Pug") := by decide

/-! ### Helper lemmas about field lookup and the parser -/

theorem jlookup_cons_self (k : String) (v : Json) (rest : List (String × Json)) :
    jlookup ((k, v) :: rest) k = some v := by
  simp [jlookup]

theorem jlookup_cons_ne (k k2 : String) (v : Json) (rest : List (String × Json))
    (h : k ≠ k2) : jlookup ((k, v) :: rest) k2 = jlookup rest k2 := by
  simp [jlookup, List.find?_cons_of_neg, h]

theorem animalToJson_eq_obj (a : Animal) : animalToJson a = .obj (animalKvs a) := by
  cases a <;> rfl

/-- On the canonical member list of a record, each lookup the schema performs
hits the declared field, whatever trailing members follow. -/
theorem catKvs_lookup (n : String) (ag l : Int) (extras : List (String × Json)) :
    jlookup (animalKvs (.cat n ag l) ++ extras) "type" = some (.str "cat") ∧
    jlookup (animalKvs (.cat n ag l) ++ extras) "name" = some (.str n) ∧
    jlookup (animalKvs (.cat n ag l) ++ extras) "age" = some (.num (ag : ℚ)) ∧
    jlookup (animalKvs (.cat n ag l) ++ extras) "livesLeft" = some (.num (l : ℚ)) := by
  refine ⟨?_, ?_, ?_, ?_⟩ <;>
    simp [animalKvs, jlookup_cons_self, jlookup_cons_ne]

theorem dogKvs_lookup (n : String) (ag : Int) (b : String)
    (extras : List (String × Json)) :
    jlookup (animalKvs (.dog n ag b) ++ extras) "type" = some (.str "dog") ∧
    jlookup (animalKvs (.dog n ag b) ++ extras) "name" = some (.str n) ∧
    jlookup (animalKvs (.dog n ag b) ++ extras) "age" = some (.num (ag : ℚ)) ∧
    jlookup (animalKvs (.dog n ag b) ++ extras) "breed" = some (.str b) := by
  refine ⟨?_, ?_, ?_, ?_⟩ <;>
    simp [animalKvs, jlookup_cons_self, jlookup_cons_ne]

theorem String.one_le_length_iff (s : String) : 1 ≤ s.length ↔ s ≠ "" := by
  rw [Nat.one_le_iff_ne_zero]
  constructor
  · intro h he
    subst he
    exact h rfl
  · intro h hz
    apply h
    cases s with
    | mk d =>
        have hd : d = [] := List.length_eq_zero.mp hz
        subst hd
        rfl

/-- A record satisfying the schema constraints parses back from its canonical
JSON form, whatever unrecognized members are appended after the declared ones. -/
theorem animalSafeParse_canonical (a : Animal) (extras : List (String × Json))
    (hv : validAnimal a) :
    animalSafeParse (.obj (animalKvs a ++ extras)) = .ok a := by
  cases a with
  | cat n ag l =>
      obtain ⟨hn, ha, hl0, hl9⟩ := hv
      obtain ⟨ht, hname, hage, hlives⟩ := catKvs_lookup n ag l extras
      have hcond : n.length ≥ 1 ∧ ((ag : ℚ)).den = 1 ∧ 0 < ((ag : ℚ)) ∧
          ((l : ℚ)).den = 1 ∧ 0 ≤ ((l : ℚ)) ∧ ((l : ℚ)) ≤ 9 := by
        refine ⟨(String.one_le_length_iff n).mpr hn, Rat.den_intCast ag, ?_,
          Rat.den_intCast l, ?_, ?_⟩ <;> exact_mod_cast ‹_›
      rw [animalSafeParse, if_pos ht, parseCat, hname, hage, hlives]
      dsimp only
      rw [if_pos hcond, Rat.num_intCast, Rat.num_intCast]
  | dog n ag b =>
      obtain ⟨hn, ha, hb⟩ := hv
      obtain ⟨ht, hname, hage, hbreed⟩ := dogKvs_lookup n ag b extras
      have hne : jlookup (animalKvs (.dog n ag b) ++ extras) "type" ≠
          some (.str "cat") := by
        rw [ht]
        intro hcontra
        simp at hcontra
      have hcond : n.length ≥ 1 ∧ ((ag : ℚ)).den = 1 ∧ 0 < ((ag : ℚ)) ∧
          b.length ≥ 1 := by
        refine ⟨(String.one_le_length_iff n).mpr hn, Rat.den_intCast ag, ?_,
          (String.one_le_length_iff b).mpr hb⟩
        exact_mod_cast ha
      rw [animalSafeParse, if_neg hne, if_pos ht, parseDog, hname, hage, hbreed]
      dsimp only
      rw [if_pos hcond, Rat.num_intCast]

/-- Soundness of the Cat branch: whatever `parseCat` accepts satisfies the
Cat constraints. -/
theorem parseCat_ok_valid (kvs : List (String × Json)) (a : Animal)
    (h : parseCat kvs = .ok a) : validAnimal a := by
  unfold parseCat at h
  split at h
  case _ =>
    rename_i n q l hn2 ha2 hl2
    split at h
    case isTrue hc =>
      obtain ⟨h1, h2, h3, h4, h5, h6⟩ := hc
      cases h
      refine ⟨(String.one_le_length_iff n).mp h1, ?_, ?_, ?_⟩
      · have hq := (Rat.den_eq_one_iff q).mp h2
        rw [← hq] at h3
        exact_mod_cast h3
      · have hl := (Rat.den_eq_one_iff l).mp h4
        rw [← hl] at h5
        exact_mod_cast h5
      · have hl := (Rat.den_eq_one_iff l).mp h4
        rw [← hl] at h6
        exact_mod_cast h6
    case isFalse => cases h
  case _ => cases h

/-- Soundness of the Dog branch. -/
theorem parseDog_ok_valid (kvs : List (String × Json)) (a : Animal)
    (h : parseDog kvs = .ok a) : validAnimal a := by
  unfold parseDog at h
  split at h
  case _ =>
    rename_i n q b hn2 ha2 hb2
    split at h
    case isTrue hc =>
      obtain ⟨h1, h2, h3, h4⟩ := hc
      cases h
      refine ⟨(String.one_le_length_iff n).mp h1, ?_,
        (String.one_le_length_iff b).mp h4⟩
      have hq := (Rat.den_eq_one_iff q).mp h2
      rw [← hq] at h3
      exact_mod_cast h3
    case isFalse => cases h
  case _ => cases h

/-- Soundness of the validator: any value it accepts satisfies the variant
constraints of its shape. -/
theorem animalSafeParse_ok_valid (j : Json) (a : Animal)
    (h : animalSafeParse j = .ok a) : validAnimal a := by
  unfold animalSafeParse at h
  split at h
  case _ kvs =>
    by_cases hc : jlookup kvs "type" = some (.str "cat")
    · rw [if_pos hc] at h
      exact parseCat_ok_valid kvs a h
    · rw [if_neg hc] at h
      by_cases hd : jlookup kvs "type" = some (.str "dog")
      · rw [if_pos hd] at h
        exact parseDog_ok_valid kvs a h
      · rw [if_neg hd] at h
        cases h
  case _ => cases h

/-! ### Claim theorems -/

/-- C3: whenever validation of the POST body fails, the response is a 400
whose body carries the fixed top-level message "Invalid animal data" plus
the field-level error detail tree, and the store is returned unchanged. -/
theorem C3_create_error_atomic (store : List Animal) (j : Json) (e : AnimalError)
    (h : animalSafeParse j = .error e) :
    postAnimals store j =
      (store, ⟨400, none,
        some (.obj [("error", .str "Invalid animal data"),
                    ("details", treeifyError e)])⟩) := by
  simp [postAnimals, h]

/-- Witness for C3 at the spec's P3 input, a cat missing age and livesLeft. -/
theorem C3_witness :
    postAnimals initialAnimals (.obj [("type", .str "cat"), ("name", .str "X")]) =
      (initialAnimals, ⟨400, none,
        some (.obj [("error", .str "Invalid animal data"),
          ("details", treeifyError (.fieldErrors
            [("age", ["Required"]), ("livesLeft", ["Required"])]))])⟩) :=
  C3_create_error_atomic initialAnimals _ _ (by decide)

/-- C4: an object body whose type member is anything other than the literal
strings cat or dog is rejected by the discriminated union before any
field-level check, and Create answers 400 with the store unchanged. -/
theorem C4_wrong_discriminator (store : List Animal) (kvs : List (String × Json))
    (h1 : jlookup kvs "type" ≠ some (.str "cat"))
    (h2 : jlookup kvs "type" ≠ some (.str "dog")) :
    animalSafeParse (.obj kvs) =
      .error (.invalidInput "Invalid discriminator value. Expected one of cat, dog") ∧
    postAnimals store (.obj kvs) =
      (store, ⟨400, none,
        some (.obj [("error", .str "Invalid animal data"),
          ("details", treeifyError (.invalidInput
            "Invalid discriminator value. Expected one of cat, dog"))])⟩) := by
  have hp : animalSafeParse (.obj kvs) =
      .error (.invalidInput "Invalid discriminator value. Expected one of cat, dog") := by
    rw [animalSafeParse, if_neg h1, if_neg h2]
  exact ⟨hp, by simp [postAnimals, hp]⟩

/-- Witness for C4 at the spec's P5 input, a bird with otherwise valid fields. -/
theorem C4_witness :
    animalSafeParse (.obj [("type", .str "bird"), ("name", .str "Tweety"),
        ("age", .num 1), ("breed", .str "Canary")]) =
      .error (.invalidInput "Invalid discriminator value. Expected one of cat, dog") ∧
    postAnimals initialAnimals (.obj [("type", .str "bird"), ("name", .str "Tweety"),
        ("age", .num 1), ("breed", .str "Canary")]) =
      (initialAnimals, ⟨400, none,
        some (.obj [("error", .str "Invalid animal data"),
          ("details", treeifyError (.invalidInput
            "Invalid discriminator value. Expected one of cat, dog"))])⟩) :=
  C4_wrong_discriminator initialAnimals _ (by decide) (by decide)

/-- C6: every body that passes validation is answered with status 201, an
empty body, and a Location header equal to the get-by-name path of the
created record's name. -/
theorem C6_create_success (store : List Animal) (j : Json) (a : Animal)
    (h : animalSafeParse j = .ok a) :
    postAnimals store j =
      (store ++ [a], ⟨201, some ("/animals/" ++ a.name), none⟩) := by
  simp [postAnimals, h]

/-- Witness for C6 at the spec's concrete scenario: Rex the Pug. -/
theorem C6_witness :
    postAnimals initialAnimals (.obj [("type", .str "dog"), ("name", .str "Rex"),
        ("age", .num 2), ("breed", .str "Pug")]) =
      (initialAnimals ++ [.dog "Rex" 2 "Pug"], ⟨201, some "/animals/Rex", none⟩) := by
  rw [C6_create_success initialAnimals _ (.dog "Rex" 2 "Pug") (by decide)]
  decide

/-- C7: resetting replaces the whole store with the two seed records, the
same two records the store holds at process start, and List then returns
exactly those two records in order. -/
theorem C7_seed_reset (store : List Animal) :
    resetAnimals store = [.cat "Whiskers" 3 7, .dog "Buddy" 5 "Labrador"] ∧
    initialAnimals = [.cat "Whiskers" 3 7, .dog "Buddy" 5 "Labrador"] ∧
    getAnimals (resetAnimals store) =
      ⟨200, none, some (.arr [animalToJson (.cat "Whiskers" 3 7),
        animalToJson (.dog "Buddy" 5 "Labrador")])⟩ :=
  ⟨rfl, rfl, rfl⟩

/-- C5: Get-by-name returns the first record in store order whose name
equals the given string exactly, and answers 404 with the fixed not-found
body when no record matches. -/
theorem C5_get_by_name (store : List Animal) (name : String) :
    ((∀ a ∈ store, a.name ≠ name) →
      getAnimalByName store name =
        ⟨404, none, some (.obj [("error", .str "Animal not found")])⟩) ∧
    (∀ pre a post, store = pre ++ a :: post → a.name = name →
      (∀ b ∈ pre, b.name ≠ name) →
      getAnimalByName store name = ⟨200, none, some (animalToJson a)⟩) := by
  constructor
  · intro h
    have hf : store.find? (fun a => a.name == name) = none := by
      rw [List.find?_eq_none]
      intro x hx
      simp [h x hx]
    rw [getAnimalByName, hf]
  · intro pre a post hs ha hpre
    have hf : store.find? (fun b => b.name == name) = some a := by
      rw [List.find?_eq_some]
      refine ⟨by simp [ha], pre, post, hs, ?_⟩
      intro b hb
      simp [hpre b hb]
    rw [getAnimalByName, hf]

/-- Witness for C5: the seed cat is found, an unknown name answers 404. -/
theorem C5_witness :
    getAnimalByName initialAnimals "Whiskers" =
      ⟨200, none, some (animalToJson (.cat "Whiskers" 3 7))⟩ ∧
    getAnimalByName initialAnimals "Nemo" =
      ⟨404, none, some (.obj [("error", .str "Animal not found")])⟩ := by
  constructor
  · exact (C5_get_by_name initialAnimals "Whiskers").2 [] (.cat "Whiskers" 3 7)
      [.dog "Buddy" 5 "Labrador"] rfl rfl (by simp)
  · exact (C5_get_by_name initialAnimals "Nemo").1 (by decide)

/-- C8: List returns the whole store in insertion order, a successful
Create appends the validated record at the end even when the name already
occurs, and the lookup result for that name is unchanged by such an
append, so Get-by-name still yields the oldest match. -/
theorem C8_list_append (store : List Animal) (j : Json) (a : Animal) :
    getAnimals store = ⟨200, none, some (.arr (store.map animalToJson))⟩ ∧
    (animalSafeParse j = .ok a → (postAnimals store j).1 = store ++ [a]) ∧
    ((∃ b ∈ store, b.name = a.name) →
      (store ++ [a]).find? (fun c => c.name == a.name) =
        store.find? (fun c => c.name == a.name)) := by
  refine ⟨rfl, ?_, ?_⟩
  · intro h
    simp [postAnimals, h]
  · rintro ⟨b, hb, hname⟩
    rw [List.find?_append]
    cases hf : store.find? (fun c => c.name == a.name) with
    | some c => rfl
    | none =>
        rw [List.find?_eq_none] at hf
        have hcontra := hf b hb
        simp [hname] at hcontra

/-- Witness for C8: appending a second Whiskers succeeds and leaves the
lookup for Whiskers pointing at the seed cat. -/
theorem C8_witness :
    (postAnimals initialAnimals (.obj (animalKvs (.cat "Whiskers" 4 5)))).1 =
      initialAnimals ++ [Animal.cat "Whiskers" 4 5] ∧
    (initialAnimals ++ [Animal.cat "Whiskers" 4 5]).find?
        (fun c => c.name == (Animal.cat "Whiskers" 4 5).name) =
      initialAnimals.find? (fun c => c.name == (Animal.cat "Whiskers" 4 5).name) := by
  have h := C8_list_append initialAnimals
    (.obj (animalKvs (.cat "Whiskers" 4 5))) (.cat "Whiskers" 4 5)
  exact ⟨h.2.1 (by decide), h.2.2 ⟨.cat "Whiskers" 3 7, by decide, rfl⟩⟩

/-- C1 as frozen is refuted by duplicate names: the seed already holds a
cat named Whiskers, so creating a second valid cat with that name succeeds
yet Get-by-name afterwards returns the older seed record, not an object
deep-equal to the submitted input. -/
theorem C1_counterexample :
    validAnimal (.cat "Whiskers" 4 5) ∧
    (postAnimals initialAnimals (.obj (animalKvs (.cat "Whiskers" 4 5)))).2.status = 201 ∧
    getAnimalByName (postAnimals initialAnimals
        (.obj (animalKvs (.cat "Whiskers" 4 5)))).1 "Whiskers" ≠
      ⟨200, none, some (.obj (animalKvs (.cat "Whiskers" 4 5)))⟩ ∧
    getAnimalByName (postAnimals initialAnimals
        (.obj (animalKvs (.cat "Whiskers" 4 5)))).1 "Whiskers" =
      ⟨200, none, some (animalToJson (.cat "Whiskers" 3 7))⟩ := by
  decide

/-- C1 amended: for any record satisfying its variant constraints whose
name is not yet in the store, Create on the canonical JSON input answers
201 and a subsequent Get-by-name returns exactly that input back. -/
theorem C1_roundtrip (store : List Animal) (a : Animal)
    (hv : validAnimal a) (hfresh : ∀ b ∈ store, b.name ≠ a.name) :
    postAnimals store (.obj (animalKvs a)) =
      (store ++ [a], ⟨201, some ("/animals/" ++ a.name), none⟩) ∧
    getAnimalByName (store ++ [a]) a.name =
      ⟨200, none, some (.obj (animalKvs a))⟩ := by
  have hp : animalSafeParse (.obj (animalKvs a)) = .ok a := by
    have hcanon := animalSafeParse_canonical a [] hv
    simpa using hcanon
  constructor
  · simp [postAnimals, hp]
  · have hfn : store.find? (fun b => b.name == a.name) = none := by
      rw [List.find?_eq_none]
      intro x hx
      simp [hfresh x hx]
    simp [getAnimalByName, List.find?_append, hfn, animalToJson_eq_obj]

/-- Witness for C1 amended: Rex the Pug round-trips through the seed store. -/
theorem C1_witness :
    postAnimals initialAnimals (.obj (animalKvs (.dog "Rex" 2 "Pug"))) =
      (initialAnimals ++ [.dog "Rex" 2 "Pug"], ⟨201, some "/animals/Rex", none⟩) ∧
    getAnimalByName (initialAnimals ++ [.dog "Rex" 2 "Pug"]) "Rex" =
      ⟨200, none, some (.obj (animalKvs (.dog "Rex" 2 "Pug")))⟩ := by
  obtain ⟨h1, h2⟩ := C1_roundtrip initialAnimals (.dog "Rex" 2 "Pug")
    (by decide) (by decide)
  constructor
  · rw [h1]
    decide
  · exact h2

/-- C9: a body carrying the declared fields of its variant plus arbitrary
unrecognized members still validates, the stored record is exactly the
declared-field record with every extra member dropped, Create answers 201,
and the record's serialized form has exactly the declared keys. -/
theorem C9_unknown_fields (store : List Animal) (a : Animal)
    (extras : List (String × Json)) (hv : validAnimal a)
    (_hx : ∀ p ∈ extras,
      p.1 ∉ (["type", "name", "age", "livesLeft", "breed"] : List String)) :
    animalSafeParse (.obj (animalKvs a ++ extras)) = .ok a ∧
    postAnimals store (.obj (animalKvs a ++ extras)) =
      (store ++ [a], ⟨201, some ("/animals/" ++ a.name), none⟩) ∧
    animalToJson a = .obj (animalKvs a) ∧
    (animalKvs a).map Prod.fst = (match a with
      | .cat _ _ _ => ["type", "name", "age", "livesLeft"]
      | .dog _ _ _ => ["type", "name", "age", "breed"]) := by
  have hp := animalSafeParse_canonical a extras hv
  refine ⟨hp, by simp [postAnimals, hp], animalToJson_eq_obj a, ?_⟩
  cases a <;> rfl

/-- Witness for C9: a cat with an extra color member is accepted and stored
without the extra member. -/
theorem C9_witness :
    animalSafeParse (.obj (animalKvs (.cat "Mitten" 2 9) ++
        [("color", .str "black")])) = .ok (.cat "Mitten" 2 9) ∧
    postAnimals initialAnimals (.obj (animalKvs (.cat "Mitten" 2 9) ++
        [("color", .str "black")])) =
      (initialAnimals ++ [.cat "Mitten" 2 9],
        ⟨201, some "/animals/Mitten", none⟩) := by
  obtain ⟨h1, h2, h3, h4⟩ := C9_unknown_fields initialAnimals (.cat "Mitten" 2 9)
    [("color", .str "black")] (by decide) (by decide)
  refine ⟨h1, ?_⟩
  rw [h2]
  decide

/-- The store states reachable from process start by resets and create
requests, successful or not. -/
inductive ReachableStore : List Animal → Prop where
  | seed : ReachableStore initialAnimals
  | reset (s : List Animal) : ReachableStore s → ReachableStore (resetAnimals s)
  | create (s : List Animal) (j : Json) :
      ReachableStore s → ReachableStore (postAnimals s j).1

/-- C10: in every store state reachable from the seed via resets and
creates, every record satisfies its variant's constraints, because the seed
records do and only validated records are ever appended. -/
theorem C10_store_invariant (s : List Animal) (h : ReachableStore s) :
    ∀ a ∈ s, validAnimal a := by
  induction h with
  | seed => decide
  | reset s hs ih =>
      intro a ha
      simp [resetAnimals] at ha
      rcases ha with rfl | rfl <;> decide
  | create s j hs ih =>
      intro a ha
      cases hp : animalSafeParse j with
      | error e =>
          rw [show (postAnimals s j).1 = s from by simp [postAnimals, hp]] at ha
          exact ih a ha
      | ok b =>
          rw [show (postAnimals s j).1 = s ++ [b] from by
            simp [postAnimals, hp]] at ha
          rcases List.mem_append.mp ha with h1 | h2
          · exact ih a h1
          · have hab : a = b := by simpa using h2
            subst hab
            exact animalSafeParse_ok_valid j a hp

/-- Witness for C10 at the seed state. -/
theorem C10_witness : validAnimal (.cat "Whiskers" 3 7) :=
  C10_store_invariant initialAnimals ReachableStore.seed
    (.cat "Whiskers" 3 7) (by decide)

/-- Stated from the spec's words: an object of type cat whose name is a
non-empty string, whose age is a positive integer number, and whose
livesLeft is an integer number between 0 and 9 inclusive. -/
def specValidCat (kvs : List (String × Json)) : Prop :=
  jlookup kvs "type" = some (.str "cat") ∧
  (∃ n, jlookup kvs "name" = some (.str n) ∧ n ≠ "") ∧
  (∃ q, jlookup kvs "age" = some (.num q) ∧ q.den = 1 ∧ 0 < q) ∧
  (∃ q, jlookup kvs "livesLeft" = some (.num q) ∧ q.den = 1 ∧ 0 ≤ q ∧ q ≤ 9)

/-- Stated from the spec's words: an object of type dog whose name is a
non-empty string, whose age is a positive integer number, and whose breed
is a non-empty string. -/
def specValidDog (kvs : List (String × Json)) : Prop :=
  jlookup kvs "type" = some (.str "dog") ∧
  (∃ n, jlookup kvs "name" = some (.str n) ∧ n ≠ "") ∧
  (∃ q, jlookup kvs "age" = some (.num q) ∧ q.den = 1 ∧ 0 < q) ∧
  (∃ b, jlookup kvs "breed" = some (.str b) ∧ b ≠ "")

/-- Stated from the spec's words: a valid animal input is an object that is
a valid cat object or a valid dog object. -/
def specValidAnimalJson (j : Json) : Prop :=
  ∃ kvs, j = .obj kvs ∧ (specValidCat kvs ∨ specValidDog kvs)

/-- C2: the validator accepts an input exactly when it is a cat object with
a non-empty name, positive integer age and livesLeft an integer in the
range 0 to 9, or a dog object with a non-empty name, positive integer age
and non-empty breed; in particular age 0 and livesLeft 10 or -1 are
rejected. -/
theorem C2_validation_iff (j : Json) :
    (∃ a, animalSafeParse j = .ok a) ↔ specValidAnimalJson j := by
  constructor
  · rintro ⟨a, ha⟩
    unfold animalSafeParse at ha
    split at ha
    case _ kvs =>
      refine ⟨kvs, rfl, ?_⟩
      by_cases hc : jlookup kvs "type" = some (.str "cat")
      · rw [if_pos hc] at ha
        left
        unfold parseCat at ha
        split at ha
        case _ =>
          rename_i n q l hn2 ha2 hl2
          split at ha
          case isTrue hcond =>
            obtain ⟨h1, h2, h3, h4, h5, h6⟩ := hcond
            exact ⟨hc, ⟨n, hn2, (String.one_le_length_iff n).mp h1⟩,
              ⟨q, ha2, h2, h3⟩, ⟨l, hl2, h4, h5, h6⟩⟩
          case isFalse => cases ha
        case _ => cases ha
      · rw [if_neg hc] at ha
        by_cases hd : jlookup kvs "type" = some (.str "dog")
        · rw [if_pos hd] at ha
          right
          unfold parseDog at ha
          split at ha
          case _ =>
            rename_i n q b hn2 ha2 hb2
            split at ha
            case isTrue hcond =>
              obtain ⟨h1, h2, h3, h4⟩ := hcond
              exact ⟨hd, ⟨n, hn2, (String.one_le_length_iff n).mp h1⟩,
                ⟨q, ha2, h2, h3⟩, ⟨b, hb2, (String.one_le_length_iff b).mp h4⟩⟩
            case isFalse => cases ha
          case _ => cases ha
        · rw [if_neg hd] at ha
          cases ha
    case _ => cases ha
  · rintro ⟨kvs, rfl, hcase⟩
    rcases hcase with ⟨ht, ⟨n, hn, hn1⟩, ⟨q, hq, hqd, hqp⟩, ⟨l, hl, hld, hl0, hl9⟩⟩ |
      ⟨ht, ⟨n, hn, hn1⟩, ⟨q, hq, hqd, hqp⟩, ⟨b, hb, hb1⟩⟩
    · refine ⟨.cat n q.num l.num, ?_⟩
      rw [animalSafeParse, if_pos ht, parseCat, hn, hq, hl]
      dsimp only
      rw [if_pos ⟨(String.one_le_length_iff n).mpr hn1, hqd, hqp, hld, hl0, hl9⟩]
    · refine ⟨.dog n q.num b, ?_⟩
      have hnc : jlookup kvs "type" ≠ some (.str "cat") := by
        rw [ht]
        intro hcontra
        simp at hcontra
      rw [animalSafeParse, if_neg hnc, if_pos ht, parseDog, hn, hq, hb]
      dsimp only
      rw [if_pos ⟨(String.one_le_length_iff n).mpr hn1, hqd, hqp,
        (String.one_le_length_iff b).mpr hb1⟩]
